import Mathlib

/-!
Verification development for the `pyqtinstaller` build-orchestration command
(`pyqtinstaller/compile_command.py`).

The Python module is shallowly embedded: pure helpers become Lean functions on
`String`/`List`; code that consults the file system, the clock, source control
or subprocesses is parameterized by an explicit `Env` record describing those
observations, and the side effects a run would perform are modelled as an
explicit `Effect` trace.  Python strings are modelled as Lean `String`s
(lists of characters); OS paths are modelled POSIX-style with a `/` separator,
which is irrelevant to every property proved here.
-/

set_option autoImplicit false

namespace Pyqtinstaller

/-! ### Python string primitives

`str.split(sep)`, `sep.join(...)` and `str.strip(...)` as used by the module.
`splitOnCharAux` mirrors CPython `str.split` with an explicit one-character
separator: it never drops empty segments and returns `[""]` on the empty
string. -/

def splitOnCharAux (c : Char) : List Char → List Char → List (List Char)
  | [], acc => [acc.reverse]
  | x :: xs, acc =>
    if x = c then acc.reverse :: splitOnCharAux c xs []
    else splitOnCharAux c xs (x :: acc)

/-- Python `s.split(c)` for a single-character separator `c`. -/
def pySplit (c : Char) (s : String) : List String :=
  (splitOnCharAux c s.data []).map (fun l => String.mk l)

def pyJoinChars (c : Char) : List (List Char) → List Char
  | [] => []
  | [x] => x
  | x :: y :: xs => x ++ c :: pyJoinChars c (y :: xs)

/-- Python `c.join(parts)` for a single-character separator `c`. -/
def pyJoin (c : Char) (parts : List String) : String :=
  String.mk (pyJoinChars c (parts.map String.data))

/-- Python `s.strip(...)` restricted to a character predicate: removes the
longest run of matching characters from both ends. -/
def pyStripWith (p : Char → Bool) (s : String) : String :=
  String.mk (((s.data.dropWhile p).reverse.dropWhile p).reverse)

/-- Python `s.strip()` (whitespace on both ends). -/
def pyStrip (s : String) : String :=
  pyStripWith Char.isWhitespace s

/-- Model of `os.path.join` for two segments (POSIX-style model). -/
def pathJoin (a b : String) : String :=
  if a = "" then b else a ++ "/" ++ b

/-- Model of `os.path.dirname` (POSIX-style model). -/
def pyDirname (p : String) : String :=
  pyJoin '/' (pySplit '/' p).dropLast

/-- Model of `os.path.basename` (POSIX-style model). -/
def pyBasename (p : String) : String :=
  (pySplit '/' p).getLastD ""

/-! ### Option parsing helpers (`to_str_list`, `to_bool`)

Raw option values are `Option String`: `none` models a Python attribute that
was left at its falsy default (`None`/`False`), `some s` a user-supplied
string. -/

/-- Model of `to_str_list`: `comma_delimited.split(',') if comma_delimited else []`. -/
def to_str_list : Option String → List String
  | none => []
  | some s => if s = "" then [] else pySplit ',' s

/-- Model of `to_bool`: `arg.lower() in ['1', 'true', 't', 'yes'] if arg else False`. -/
def to_bool : Option String → Bool
  | none => false
  | some s => if s = "" then false else ["1", "true", "t", "yes"].contains s.toLower

/-- Python truthiness of an optional string attribute. -/
def truthy : Option String → Bool
  | none => false
  | some s => s ≠ ""

/-! ### `get_version`

`get_version(package, allow_untagged)` observes `git describe --tags` (here the
already-decoded output `gitDescribe`), the package-declared `__version__`
(`declaredVersion`) and `datetime.now().strftime('%Y%m%d%H%M%S')`
(`buildTimestamp`).  A raised `ValueError` is modelled as `Except.error`. -/

def get_version (gitDescribe declaredVersion buildTimestamp : String)
    (allowUntagged : Bool) : Except String String :=
  let package_version := pyStrip gitDescribe
  if package_version ≠ "" then
    let version_parts := pySplit '-' (pyStripWith (fun x => x = 'v') package_version)
    if allowUntagged = false ∧ version_parts.length > 2 then
      Except.error ("Untagged version not allowed! Description: " ++ package_version)
    else
      Except.ok (pyJoin '-'
        (if version_parts.length ≤ 2 then version_parts else version_parts.dropLast))
  else
    let version_parts := pySplit '-' declaredVersion
    let version_parts :=
      if version_parts.length = 1 then version_parts ++ [buildTimestamp]
      else version_parts.dropLast ++ [buildTimestamp]
    Except.ok (pyJoin '-' version_parts)

/-! ### `assert_call`

`assert_call` wraps `subprocess.call`; the exit status of the wrapped command
is the `exitCode` argument.  A failed Python `assert` is `Except.error` with
the interpolated assertion message. -/

def assert_call (cmd : List String) (exitCode : Int) : Except String Unit :=
  if exitCode ≠ 0 then
    Except.error (pyJoin ' ' cmd ++ " exited with code " ++ toString exitCode ++
      " - see output for details")
  else
    Except.ok ()

/-! ### Effects and environment

`Effect` records, in order, the externally visible actions a build performs:
subprocess invocations, file writes/reads/copies/moves/removals and dynamic
module loads.  `Env` is the ambient state the command observes: which paths
exist, glob results, file contents, `sys.path`, the `git describe --tags`
output, the package-declared `__version__`, the current timestamp, and the
mapping returned by each configured build-step hook. -/

inductive Effect where
  | procCall (cmd : List String)
  | procShell (cmd : String)
  | fileWrite (p : String)
  | fileRead (p : String)
  | copyFile (src dst : String)
  | copyTree (src dst : String) (ignore : List String)
  | moveFile (src dst : String)
  | removeTree (p : String)
  | removeFile (p : String)
  | makeDirs (p : String)
  | loadModule (p : String)
  deriving DecidableEq

structure Env where
  isfile : String → Bool
  isdir : String → Bool
  glob : String → List String
  fileLines : String → List String
  sysPath : List String
  gitDescribe : String
  declaredVersion : String
  now : String
  hookResult : String → List (String × String)

/-- Holds for the effects that create, read or modify files. -/
def effectTouchesFile : Effect → Bool
  | Effect.fileWrite _ => true
  | Effect.fileRead _ => true
  | Effect.copyFile _ _ => true
  | Effect.copyTree _ _ _ => true
  | Effect.moveFile _ _ => true
  | Effect.removeTree _ => true
  | Effect.removeFile _ => true
  | Effect.makeDirs _ => true
  | _ => false

/-! ### Raw options and `initialize_options`

One field per attribute assigned in `CompileCommand.initialize_options`.
Attributes initialized to `None`/`False` are `none`; `platform` defaults to
`'amd64'`. -/

structure Options where
  qt_modules : Option String := none
  qmake_path : Option String := none
  vc_dir : Option String := none
  platform : Option String := some "amd64"
  pyqt_dir : Option String := none
  sip_dir : Option String := none
  python_dir : Option String := none
  inno_setup_path : Option String := none
  package : Option String := none
  entrypoint : Option String := none
  app_name : Option String := none
  file_extension : Option String := none
  app_icon : Option String := none
  license_file : Option String := none
  build_dir : Option String := none
  resources_dirs : Option String := none
  win_console : Option String := none
  languages : Option String := none
  stdlib_modules : Option String := none
  external_stdlib_modules : Option String := none
  stdlib_binaries : Option String := none
  external_packages : Option String := none
  skip_installer : Option String := none
  skip_post_build : Option String := none
  post_build : Option String := none
  pre_build : Option String := none
  compiled_packages : Option String := none
  allow_untagged : Option String := none
  signtool : Option String := none
  additional_libs : Option String := none
  source_files : Option String := none
  deriving DecidableEq

/-- Model of `CompileCommand.initialize_options`: assigns every option its fixed
default.  The source reads nothing from disk here, so the ambient `Env` is
ignored (named `initial_options`; defined from `initialize_options` in the
source). -/
def initial_options (_env : Env) : Options := {}

/-! ### `finalize_options`

The validated configuration produced by `CompileCommand.finalize_options`. -/

structure Config where
  qmake_path : String
  vc_dir : String
  platform : String
  pyqt_dir : String
  sip_dir : String
  python_dir : String
  inno_setup_path : Option String
  package : String
  entrypoint : Option String
  app_name : String
  app_icon : Option String
  license_file : Option String
  file_extension : Option String
  build_dir : String
  resources_dirs : List String
  qt_modules : List String
  stdlib_modules : List String
  external_stdlib_modules : List String
  stdlib_binaries : List String
  external_packages : List String
  languages : List String
  post_build : List String
  pre_build : List String
  win_console : Bool
  skip_installer : Bool
  skip_post_build : Bool
  compiled_packages : List String
  allow_untagged : Bool
  signtool : Option String
  additional_libs : List String
  source_files : List (String × String)
  app_version : String
  deriving DecidableEq

/-- The `source_files` dict comprehension
`{source: dest for source, dest in [f.split(':') for f in s.split(',')]}`;
a segment that does not split into exactly two parts raises (`ValueError`
from tuple unpacking, message modelled). -/
def parse_source_files_go : List String → Except String (List (String × String))
  | [] => Except.ok []
  | f :: fs =>
    match pySplit ':' f with
    | [a, b] => (parse_source_files_go fs).map (fun r => (a, b) :: r)
    | _ => Except.error "ValueError: source-file mapping must be <source>:<dest>"

def parse_source_files : Option String → Except String (List (String × String))
  | none => Except.ok []
  | some s => if s = "" then Except.ok [] else parse_source_files_go (pySplit ',' s)

/-- The effects `finalize_options` performs when it reaches the `app_config`
assignment: resolving `self._app_version` runs `git describe --tags` via
`check_output`, and on empty describe output the fallback dynamically imports
the target package. -/
def finalize_version_effects (o : Options) (env : Env) : List Effect :=
  Effect.procCall ["git", "describe", "--tags"] ::
    (if pyStrip env.gitDescribe = "" then [Effect.loadModule (o.package.getD "")] else [])

/-- The validated configuration `finalize_options` produces on success:
every option normalized (`to_str_list`/`to_bool`), `build_dir` defaulted to
`'build'`, and the resolved version stored. -/
def mkConfig (o : Options) (sf : List (String × String)) (v : String) : Config :=
  { qmake_path := o.qmake_path.getD ""
    vc_dir := o.vc_dir.getD ""
    platform := o.platform.getD ""
    pyqt_dir := o.pyqt_dir.getD ""
    sip_dir := o.sip_dir.getD ""
    python_dir := o.python_dir.getD ""
    inno_setup_path := o.inno_setup_path
    package := o.package.getD ""
    entrypoint := o.entrypoint
    app_name := o.app_name.getD ""
    app_icon := o.app_icon
    license_file := o.license_file
    file_extension := o.file_extension
    build_dir := if truthy o.build_dir then o.build_dir.getD "" else "build"
    resources_dirs := to_str_list o.resources_dirs
    qt_modules := to_str_list o.qt_modules
    stdlib_modules := to_str_list o.stdlib_modules
    external_stdlib_modules := to_str_list o.external_stdlib_modules
    stdlib_binaries := to_str_list o.stdlib_binaries
    external_packages := to_str_list o.external_packages
    languages := to_str_list o.languages
    post_build := to_str_list o.post_build
    pre_build := to_str_list o.pre_build
    win_console := to_bool o.win_console
    skip_installer := to_bool o.skip_installer
    skip_post_build := to_bool o.skip_post_build
    compiled_packages := to_str_list o.compiled_packages
    allow_untagged := to_bool o.allow_untagged
    signtool := o.signtool
    additional_libs := to_str_list o.additional_libs
    source_files := sf
    app_version := v }

/-- Tail of `finalize_options` after the path assertions and the
`source_files` parse: the installer-path assertions and the `app_config`
construction (which resolves `_app_version`). -/
def finalize_tail (o : Options) (env : Env) (sf : List (String × String)) :
    List Effect × Except String Config :=
  if to_bool o.skip_installer = false ∧ truthy o.inno_setup_path = false then
    ([], Except.error "inno-setup-path must be provided") else
  if to_bool o.skip_installer = false ∧ env.isfile (o.inno_setup_path.getD "") = false then
    ([], Except.error "inno setup path does not exist") else
  match get_version env.gitDescribe env.declaredVersion env.now (to_bool o.allow_untagged) with
  | Except.error e => (finalize_version_effects o env, Except.error e)
  | Except.ok v => (finalize_version_effects o env, Except.ok (mkConfig o sf v))

/-- Model of `CompileCommand.finalize_options`: the assertion chain, the option
normalizations and the `app_config` construction, in source order.  A failed
`assert` is `Except.error` with the assertion message; the first component is
the trace of effects performed before returning. -/
def finalize_options (o : Options) (env : Env) : List Effect × Except String Config :=
  if truthy o.qmake_path = false then ([], Except.error "qmake-path must be provided") else
  if truthy o.vc_dir = false then ([], Except.error "vc-path must be provided") else
  if truthy o.platform = false then ([], Except.error "platform must be specified") else
  if truthy o.pyqt_dir = false then ([], Except.error "pyqt-dir must be specified") else
  if truthy o.sip_dir = false then ([], Except.error "sip-dir must be specified") else
  if truthy o.python_dir = false then ([], Except.error "python-dir must be provided") else
  if env.isfile (o.qmake_path.getD "") = false then
    ([], Except.error "qmake path does not exist") else
  if env.isdir (o.vc_dir.getD "") = false then
    ([], Except.error "vc directory path does not exist") else
  if ["amd64"].contains (o.platform.getD "") = false then
    ([], Except.error ("Platform " ++ o.platform.getD "" ++ " is not currently supported")) else
  if env.isdir (o.pyqt_dir.getD "") = false then
    ([], Except.error "pyqt directory does not exist") else
  if env.isdir (o.sip_dir.getD "") = false then
    ([], Except.error "sip directory does not exist") else
  if env.isdir (o.python_dir.getD "") = false then
    ([], Except.error "python directory could not be found") else
  if truthy o.qt_modules = false then ([], Except.error "qt-modules must be specified") else
  if truthy o.package = false then ([], Except.error "package must be specified") else
  if truthy o.app_name = false then ([], Except.error "Must provide an app name") else
  if env.isdir (o.package.getD "") = false then ([], Except.error "package not found") else
  if truthy o.entrypoint = true ∧ env.isfile (o.entrypoint.getD "") = false then
    ([], Except.error "entrypoint not found") else
  match parse_source_files o.source_files with
  | Except.error e => ([], Except.error e)
  | Except.ok sf => finalize_tail o env sf

/-- The disjunction "some required path-valued option does not exist on
disk": qmake path, vc dir, pyqt dir, sip dir, python dir, package dir, a
provided entrypoint, or the inno-setup path when the installer is not
skipped. -/
def BadPath (o : Options) (env : Env) : Prop :=
  env.isfile (o.qmake_path.getD "") = false ∨
  env.isdir (o.vc_dir.getD "") = false ∨
  env.isdir (o.pyqt_dir.getD "") = false ∨
  env.isdir (o.sip_dir.getD "") = false ∨
  env.isdir (o.python_dir.getD "") = false ∨
  env.isdir (o.package.getD "") = false ∨
  (truthy o.entrypoint = true ∧ env.isfile (o.entrypoint.getD "") = false) ∨
  (to_bool o.skip_installer = false ∧ env.isfile (o.inno_setup_path.getD "") = false)

/-- The path-existence facts that hold whenever `finalize_options` gets past
its assertion chain. -/
def PathsOk (o : Options) (env : Env) : Prop :=
  env.isfile (o.qmake_path.getD "") = true ∧
  env.isdir (o.vc_dir.getD "") = true ∧
  env.isdir (o.pyqt_dir.getD "") = true ∧
  env.isdir (o.sip_dir.getD "") = true ∧
  env.isdir (o.python_dir.getD "") = true ∧
  env.isdir (o.package.getD "") = true ∧
  (truthy o.entrypoint = true → env.isfile (o.entrypoint.getD "") = true) ∧
  (to_bool o.skip_installer = false → env.isfile (o.inno_setup_path.getD "") = true)

/-! ### Derived locations (`CompileCommand` properties) -/

/-- Model of `_project_name`: `app_name.replace(' ', '')` — every space removed. -/
def project_name (cfg : Config) : String :=
  String.mk (cfg.app_name.data.filter (fun ch => !(ch = ' ')))

/-- Model of `_qt_dir`: directory containing qmake. -/
def qt_dir (cfg : Config) : String :=
  pyDirname cfg.qmake_path

/-- Model of `output_dir`: `path.join(build_dir, 'release')`. -/
def output_dir (cfg : Config) : String :=
  pathJoin cfg.build_dir "release"

/-- Model of `qmake_pro_file`: `path.join(build_dir, f'{project_name}.pro')`. -/
def qmake_pro_file (cfg : Config) : String :=
  pathJoin cfg.build_dir (project_name cfg ++ ".pro")

/-- Model of `_installer_filename`, with the `-{name}` suffix `_build_installer`
appends for a named output target (empty name is falsy). -/
def installer_filename (cfg : Config) (name : String) : String :=
  let base := project_name cfg ++ "_" ++ cfg.app_version ++ "_" ++ cfg.platform
  if name = "" then base else base ++ "-" ++ name

/-- Model of `get_vc_bin_dir`. -/
def get_vc_bin_dir (vc_dir platform : String) : String :=
  if platform = "x86" then pathJoin vc_dir "bin"
  else pathJoin vc_dir (pathJoin "bin" platform)

/-! ### Translation stages (`_generate_ts`, `_generate_qm`) -/

/-- Model of `_get_translation_files`. -/
def translation_files (cfg : Config) : List String :=
  cfg.languages.map (fun lang => "translations/" ++ cfg.package ++ "_" ++ lang ++ ".ts")

/-- The external commands `_generate_ts` runs: `pylupdate5` on the
concatenated sources, only when `self.languages` is truthy (nonempty). -/
def generate_ts_calls (cfg : Config) : List (List String) :=
  if cfg.languages.isEmpty then []
  else [["pylupdate5", "-verbose", pathJoin cfg.build_dir "temp_tr.py", "-ts"] ++
    translation_files cfg]

/-- The external commands `_generate_qm` runs: `lrelease` on the generated
project file, with no guard on `self.languages`. -/
def generate_qm_calls (cfg : Config) : List (List String) :=
  [[pathJoin (qt_dir cfg) "lrelease", "-verbose", qmake_pro_file cfg]]

/-! ### Artifact discovery (`_get_external_package_path`) -/

/-- The cumulative filter loop of `_get_external_package_path`: narrow the
candidate roots by each requirement in turn, asserting the surviving set is
nonempty after every step. -/
def filter_requires (pexists : String → String → Bool) :
    List String → List String → Except String (List String)
  | paths, [] => Except.ok paths
  | paths, r :: rs =>
    let remaining := paths.filter (fun d => pexists d r)
    if remaining.isEmpty then
      Except.error ("No valid package paths found for " ++ r)
    else
      filter_requires pexists remaining rs

/-- Model of `_get_external_package_path(requires, package_exists)`: candidate roots
are `sys.path + ['.']`; returns the head of the surviving candidate list. -/
def get_external_package_path (pexists : String → String → Bool)
    (sysPath requires : List String) : Except String String :=
  (filter_requires pexists (sysPath ++ ["."]) requires).map (fun l => l.headD "")

/-- The default `package_exists` lambda: directory, module file, egg-link
indirection file, or compiled `.pyd` extension. -/
def default_package_exists (env : Env) (d r : String) : Bool :=
  env.isdir (pathJoin d r) || env.isfile (pathJoin d (r ++ ".py")) ||
  env.isfile (pathJoin d (r ++ ".egg-link")) ||
  !(env.glob (pathJoin d (r ++ ".*.pyd"))).isEmpty

/-! ### External-package copy (`_resolve_egg_link`, `_copy_external_packages`) -/

/-- Model of `_resolve_egg_link`: follow a `.egg-link` indirection file (its first
line) when present. -/
def resolve_egg_link (env : Env) (epath pkg : String) : String × String :=
  if env.isfile (pathJoin epath (pkg ++ ".egg-link")) then
    ((env.fileLines (pathJoin epath (pkg ++ ".egg-link"))).headD "", pkg)
  else (epath, pkg)

/-- Model of `path.join(output_dir, 'packages')`. -/
def packages_dest (cfg : Config) : String :=
  pathJoin (output_dir cfg) "packages"

/-- The loop body of `_copy_external_packages` for one external package:
copy the package directory (skipped when the destination directory already
exists), else the module file (skipped when the destination file already
exists), else the first matching compiled `.pyd` (no existence check). -/
def copy_package_ops (env : Env) (current_path pkg dest : String) : List Effect :=
  if env.isdir (pathJoin current_path pkg) && !env.isdir (pathJoin dest pkg) then
    [Effect.copyTree (pathJoin current_path pkg) (pathJoin dest pkg)
      ["__pycache__", "*.pyc"]]
  else if env.isfile (pathJoin current_path (pkg ++ ".py")) &&
      !env.isfile (pathJoin dest (pkg ++ ".py")) then
    [Effect.copyFile (pathJoin current_path (pkg ++ ".py"))
      (pathJoin dest (pkg ++ ".py"))]
  else if !(env.glob (pathJoin current_path (pkg ++ ".*.pyd"))).isEmpty then
    [Effect.copyFile ((env.glob (pathJoin current_path (pkg ++ ".*.pyd"))).headD "")
      (pathJoin dest (pyBasename ((env.glob (pathJoin current_path (pkg ++ ".*.pyd"))).headD "")))]
  else []

/-- The second loop of `_copy_external_packages`, over
`external_stdlib_modules` (directory form only, same existence guard and
ignore patterns). -/
def stdlib_copy_ops (env : Env) (spath pkg dest : String) : List Effect :=
  if env.isdir (pathJoin spath pkg) && !env.isdir (pathJoin dest pkg) then
    [Effect.copyTree (pathJoin spath pkg) (pathJoin dest pkg) ["__pycache__", "*.pyc"]]
  else []

/-- Model of `_copy_external_packages`, as the effect trace of a run in which the
package-path assertions succeed (on assertion failure the run aborts). -/
def copy_external_packages_effects (cfg : Config) (env : Env) : List Effect :=
  let epath := (get_external_package_path (default_package_exists env) env.sysPath
    cfg.external_packages).toOption.getD ""
  (cfg.external_packages.flatMap (fun pkg =>
    let rp := resolve_egg_link env epath pkg
    copy_package_ops env rp.1 rp.2 (packages_dest cfg))) ++
  (let spath := (get_external_package_path (default_package_exists env) env.sysPath
    cfg.external_stdlib_modules).toOption.getD ""
  cfg.external_stdlib_modules.flatMap (fun pkg =>
    stdlib_copy_ops env spath pkg (packages_dest cfg)))

/-! ### Output targets and installers (`run`, `_build_installer`)

`{**a, **b}` on string-keyed dicts: keys of `a` (values updated from `b`),
then the keys of `b` not in `a`.  An output-target value is modelled by its
output-directory string. -/

def dictMerge (a b : List (String × String)) : List (String × String) :=
  a.map (fun kv =>
    match b.find? (fun kv2 => kv2.1 == kv.1) with
    | some kv2 => (kv.1, kv2.2)
    | none => kv) ++
  b.filter (fun kv => !(a.any (fun kv2 => kv2.1 == kv.1)))

/-- The `output_dirs` mapping `run` holds when it reaches the installer
stage: empty, then (unless post-build is skipped) merged with each post-build
hook's returned mapping, defaulting to `{'': output_dir}` when the merge is
empty.  Pre-build hooks are executed earlier but their return values are
discarded (source lines 251-252). -/
def run_output_dirs (cfg : Config) (env : Env) : List (String × String) :=
  let od : List (String × String) := []
  if cfg.skip_post_build then od
  else
    let od := cfg.post_build.foldl (fun m step => dictMerge m (env.hookResult step)) od
    if od.isEmpty then [("", output_dir cfg)] else od

/-- Model of `filename` in `_exec_build_step`: the part of `<file>:<function>` before
the colon. -/
def hookFile (step : String) : String :=
  (pySplit ':' step).headD ""

/-- Model of `_build_installer` for one output target `(name, outputDirectory)`:
render `setup.iss`, run inno-setup, optionally run the signing command
(a shell string), and move the installer into the invoking directory. -/
def installer_effects (cfg : Config) (t : String × String) : List Effect :=
  [Effect.fileWrite (pathJoin t.2 "setup.iss"),
   Effect.procCall [cfg.inno_setup_path.getD "", pathJoin t.2 "setup.iss"]] ++
  (match cfg.signtool with
   | some st =>
     [Effect.procShell (st ++ " " ++ pathJoin t.2 (installer_filename cfg t.1 ++ ".exe"))]
   | none => []) ++
  [Effect.moveFile (pathJoin t.2 (installer_filename cfg t.1 ++ ".exe"))
    (pathJoin "." (installer_filename cfg t.1 ++ ".exe"))]

/-- Model of `CompileCommand.run`: the ordered effect trace of a run in which every
stage succeeds.  Every external-process invocation of the source appears;
the individual per-file destinations of the resource/DLL copy stages are
elided, and a dynamically loaded hook contributes its file read and module
load (its internal actions are the hook's own code). -/
def run_effects (cfg : Config) (env : Env) : List Effect :=
  -- _apply_version
  [Effect.fileWrite (pathJoin cfg.package "__version__.py")] ++
  -- _clean
  (if env.isdir cfg.build_dir then [Effect.removeTree cfg.build_dir] else []) ++
  -- pre-build hooks (return values discarded)
  cfg.pre_build.flatMap (fun step =>
    [Effect.fileRead (hookFile step), Effect.loadModule (hookFile step)]) ++
  -- _build_project_file: get_python_version subprocess, then the .pdy render
  [Effect.procCall [pathJoin cfg.python_dir "python.exe", "--version"],
   Effect.fileWrite (project_name cfg ++ ".pdy")] ++
  -- _create_app_resources: the rendered resource manifest
  [Effect.fileWrite (pathJoin (pathJoin cfg.build_dir "app_resources") "app_resources.qrc")] ++
  -- _get_vc_env: vcvarsall via cmd
  [Effect.procCall ["cmd", "/c", "vcvarsall.bat " ++ cfg.platform ++ "&set"]] ++
  -- _run_pyqtdeploy
  [Effect.procCall ["pyqtdeploycli", "build", "--output", cfg.build_dir,
    "--project", project_name cfg ++ ".pdy"]] ++
  -- _remove_version
  [Effect.removeFile (pathJoin cfg.package "__version__.py")] ++
  -- _generate_ts
  (generate_ts_calls cfg).map Effect.procCall ++
  -- _generate_qm
  (generate_qm_calls cfg).map Effect.procCall ++
  -- _run_qmake
  [Effect.procCall [cfg.qmake_path]] ++
  -- _update_source_files
  cfg.source_files.map (fun sd => Effect.copyFile sd.1 (pathJoin cfg.build_dir sd.2)) ++
  -- _run_nmake
  [Effect.procCall [pathJoin (get_vc_bin_dir cfg.vc_dir cfg.platform) "nmake"]] ++
  -- _copy_binaries: windeployqt (per-DLL copies elided)
  [Effect.procCall [pathJoin (qt_dir cfg) "windeployqt", "--release",
    pathJoin (output_dir cfg) (project_name cfg ++ ".exe")]] ++
  -- _copy_external_packages
  copy_external_packages_effects cfg env ++
  -- post-build hooks
  (if cfg.skip_post_build then []
   else cfg.post_build.flatMap (fun step =>
     [Effect.fileRead (hookFile step), Effect.loadModule (hookFile step)])) ++
  -- installers
  (if cfg.skip_installer then []
   else (run_output_dirs cfg env).flatMap (fun t => installer_effects cfg t))

/-- The `setuptools` driver: `run` executes only after `finalize_options`
returned normally. -/
def pipeline_effects (o : Options) (env : Env) : List Effect :=
  match finalize_options o env with
  | (tr, Except.error _) => tr
  | (tr, Except.ok cfg) => tr ++ run_effects cfg env

/-! ### The `_app_version` cached property

`_app_version` computes `get_version` once and stores it in
`_app_version_c`; later accesses return the stored string.  An access is
modelled against the `Env` current at that moment (so the wall-clock
timestamp may differ between accesses). -/

def app_version_step (cached : Option String) (env : Env) (allow : Bool) :
    Except String (String × Option String) :=
  match cached with
  | some v => Except.ok (v, some v)
  | none =>
    (get_version env.gitDescribe env.declaredVersion env.now allow).map
      (fun v => (v, some v))

/-- The version strings observed by a sequence of `_app_version` accesses,
threading the `_app_version_c` cache. -/
def app_version_accesses : List Env → Bool → Option String → Except String (List String)
  | [], _, _ => Except.ok []
  | env :: rest, allow, cached =>
    match app_version_step cached env allow with
    | Except.error e => Except.error e
    | Except.ok (v, c) => (app_version_accesses rest allow c).map (fun vs => v :: vs)

/-! ### Concrete fixtures

Small concrete configurations and environments used to instantiate the
theorems below on explicit inputs. -/

/-- A minimal validated configuration: one Qt module, no optional features,
installer and post-build skipped. -/
def cfgBase : Config :=
  { qmake_path := "qt/bin/qmake"
    vc_dir := "vc"
    platform := "amd64"
    pyqt_dir := "pyqt"
    sip_dir := "sip"
    python_dir := "py"
    inno_setup_path := some "inno/ISCC.exe"
    package := "mypkg"
    entrypoint := none
    app_name := "My App"
    app_icon := none
    license_file := none
    file_extension := none
    build_dir := "build"
    resources_dirs := []
    qt_modules := ["QtCore"]
    stdlib_modules := []
    external_stdlib_modules := []
    stdlib_binaries := []
    external_packages := []
    languages := []
    post_build := []
    pre_build := []
    win_console := false
    skip_installer := true
    skip_post_build := true
    compiled_packages := []
    allow_untagged := false
    signtool := none
    additional_libs := []
    source_files := []
    app_version := "1.2.0" }

/-- An environment in which no path exists and every observation is empty. -/
def envBase : Env :=
  { isfile := fun _ => false
    isdir := fun _ => false
    glob := fun _ => []
    fileLines := fun _ => []
    sysPath := []
    gitDescribe := ""
    declaredVersion := "1.0.0"
    now := "20240101000000"
    hookResult := fun _ => [] }

/-- Raw options with every required option supplied. -/
def optsFull : Options :=
  { qmake_path := some "qt/bin/qmake"
    vc_dir := some "vc"
    pyqt_dir := some "pyqt"
    sip_dir := some "sip"
    python_dir := some "py"
    qt_modules := some "QtCore"
    package := some "mypkg"
    app_name := some "My App"
    inno_setup_path := some "inno/ISCC.exe" }

/-- An environment in which every queried path exists and `git describe`
reports the clean tag `v1.0.0`. -/
def envAll : Env :=
  { envBase with isfile := (fun _ => true), isdir := (fun _ => true), gitDescribe := "v1.0.0" }

/-- A `package_exists` predicate for which root `d1` satisfies only
requirement `a`, root `d2` satisfies only requirement `b`, and requirement
`c` is satisfied nowhere. -/
def pexistsC (d r : String) : Bool :=
  (d == "d1" && r == "a") || (d == "d2" && r == "b")

/-- A `package_exists` predicate for which the search root `sroot` contains
both modules `A` and `B` and the current directory contains neither. -/
def pexistsAB (d r : String) : Bool :=
  d == "sroot" && (r == "A" || r == "B")

/-- A configuration with one pre-build hook, post-build and installer stages
enabled. -/
def cfgPre : Config :=
  { cfgBase with
    pre_build := ["hooks.py:prehook"]
    skip_post_build := false
    skip_installer := false }

/-- An environment whose pre-build hook returns the mapping
`{'extra': 'out_extra'}`. -/
def envPre : Env :=
  { envBase with hookResult := fun s =>
      if s == "hooks.py:prehook" then [("extra", "out_extra")] else [] }

/-- A configuration with one post-build hook and post-build enabled. -/
def cfgPost : Config :=
  { cfgBase with post_build := ["hooks.py:posthook"], skip_post_build := false }

/-- An environment whose post-build hook returns `{'extra': 'out_extra'}`. -/
def envPost : Env :=
  { envBase with hookResult := fun s =>
      if s == "hooks.py:posthook" then [("extra", "out_extra")] else [] }

/-- An environment for the external-package copy in which the destination
directory `out/packages/foo` already exists while the package resolves to the
module file `site/foo.py`. -/
def envCopy : Env :=
  { envBase with
    isdir := fun p => p == "out/packages/foo"
    isfile := fun p => p == "site/foo.py" }

/-- An environment in which both destination forms of package `foo` already
exist under `out/packages` and no compiled extension matches. -/
def envCopyBoth : Env :=
  { envBase with
    isdir := fun p => p == "out/packages/foo"
    isfile := fun p => p == "out/packages/foo.py" }

/-- Version-fallback environment (no source-control metadata) at one
wall-clock instant. -/
def envClock1 : Env :=
  { envBase with declaredVersion := "1.2.0", now := "20240101000000" }

/-- The same fallback environment observed at a later wall-clock instant. -/
def envClock2 : Env :=
  { envClock1 with now := "20250303030303" }

/-! ## Helper lemmas -/

theorem splitOnCharAux_ne_nil (c : Char) (l acc : List Char) :
    splitOnCharAux c l acc ≠ [] := by
  induction l generalizing acc with
  | nil => simp [splitOnCharAux]
  | cons x xs ih =>
    by_cases hx : x = c
    · simp [splitOnCharAux, hx]
    · simpa [splitOnCharAux, hx] using ih (x :: acc)

theorem pyJoinChars_splitOnCharAux (c : Char) (l acc : List Char) :
    pyJoinChars c (splitOnCharAux c l acc) = acc.reverse ++ l := by
  induction l generalizing acc with
  | nil => simp [splitOnCharAux, pyJoinChars]
  | cons x xs ih =>
    by_cases hx : x = c
    · subst hx
      obtain ⟨hd, tl, ht⟩ := List.exists_cons_of_ne_nil (splitOnCharAux_ne_nil x xs [])
      simp only [splitOnCharAux, if_pos rfl, ht]
      show acc.reverse ++ x :: pyJoinChars x (hd :: tl) = acc.reverse ++ x :: xs
      rw [← ht, ih []]
      simp
    · simp only [splitOnCharAux, if_neg hx]
      rw [ih (x :: acc)]
      simp

/-- Joining a Python split with the same separator recovers the string. -/
theorem pyJoin_pySplit (c : Char) (s : String) : pyJoin c (pySplit c s) = s := by
  unfold pyJoin pySplit
  rw [List.map_map]
  have h1 : (String.data ∘ fun l => String.mk l) = id := rfl
  rw [h1, List.map_id, pyJoinChars_splitOnCharAux]
  rfl

/-! ## C9: comma-delimited option parsing round-trips -/

/-- C9: for every string with no empty segments, joining `to_str_list s` with
`","` yields `s` again; absent (`None`) and empty inputs both parse to the
empty sequence without failing. -/
theorem to_str_list_round_trip (s : String)
    (h : ∀ t ∈ to_str_list (some s), t ≠ "") :
    pyJoin ',' (to_str_list (some s)) = s ∧
    to_str_list none = [] ∧ to_str_list (some "") = [] := by
  refine ⟨?_, rfl, rfl⟩
  by_cases hs : s = ""
  · subst hs; rfl
  · simpa [to_str_list, hs] using pyJoin_pySplit ',' s

theorem to_str_list_round_trip_witness :
    pyJoin ',' (to_str_list (some "QtCore,QtQuick")) = "QtCore,QtQuick" :=
  (to_str_list_round_trip "QtCore,QtQuick" (by decide)).1

/-! ## C1: the three-case postcondition of `get_version` -/

/-- C1: a clean tag `v1.2.0` resolves to `1.2.0`; with no describe output and
declared version `1.2.0`, resolution yields `1.2.0-` followed by the 14-digit
build timestamp; a describe output with a nonzero commit distance
(`<tag>-<distance>-<commit>`) under strict mode (`allow_untagged` false) is an
error. -/
theorem get_version_three_cases (pkg build : String) (allow : Bool)
    (hlen : build.length = 14) (hdig : ∀ ch ∈ build.data, ch.isDigit = true) :
    get_version "v1.2.0" pkg build allow = Except.ok "1.2.0" ∧
    (∃ ts, get_version "" "1.2.0" build allow = Except.ok ("1.2.0-" ++ ts) ∧
      ts.length = 14 ∧ ∀ ch ∈ ts.data, ch.isDigit = true) ∧
    get_version "v1.2.0-5-gabc123" pkg build false =
      Except.error "Untagged version not allowed! Description: v1.2.0-5-gabc123" := by
  refine ⟨?_, ⟨build, ?_, hlen, hdig⟩, ?_⟩
  · cases allow <;> rfl
  · rfl
  · rfl

theorem get_version_three_cases_witness :
    get_version "v1.2.0" "mypkg" "20240101121314" true = Except.ok "1.2.0" :=
  (get_version_three_cases "mypkg" "20240101121314" true (by decide) (by decide)).1

/-! ## C3: `assert_call` failure semantics -/

/-- C3: a zero exit status continues normally; a nonzero exit status is an
error whose message contains the full command line and the exit code, and
nothing sequenced after the failed call runs. -/
theorem assert_call_spec (cmd : List String) (exitCode : Int) :
    (exitCode = 0 → assert_call cmd exitCode = Except.ok ()) ∧
    (exitCode ≠ 0 →
      (∃ msg, assert_call cmd exitCode = Except.error msg ∧
        (∃ a b, msg = a ++ pyJoin ' ' cmd ++ b) ∧
        (∃ a b, msg = a ++ toString exitCode ++ b)) ∧
      ∀ k : Unit → Except String Unit,
        assert_call cmd exitCode >>= k = assert_call cmd exitCode) := by
  constructor
  · intro h; simp [assert_call, h]
  · intro h
    have he : assert_call cmd exitCode =
        Except.error (pyJoin ' ' cmd ++ " exited with code " ++ toString exitCode ++
          " - see output for details") := by
      simp [assert_call, h]
    refine ⟨⟨_, he, ⟨"", " exited with code " ++ toString exitCode ++
      " - see output for details", ?_⟩,
      ⟨pyJoin ' ' cmd ++ " exited with code ", " - see output for details", ?_⟩⟩, ?_⟩
    · simp [String.append_assoc]
    · simp [String.append_assoc]
    · intro k; rw [he]; rfl

theorem assert_call_spec_witness :
    assert_call ["nmake"] 0 = Except.ok () ∧
    assert_call ["nmake"] 2 >>= (fun _ => Except.ok ()) = assert_call ["nmake"] 2 :=
  ⟨(assert_call_spec ["nmake"] 0).1 rfl,
    ((assert_call_spec ["nmake"] 2).2 (by decide)).2 (fun _ => Except.ok ())⟩

/-! ## C4: artifact discovery (`_get_external_package_path`) -/

theorem filter_requires_ok (pexists : String → String → Bool) (rs : List String) :
    ∀ paths l, filter_requires pexists paths rs = Except.ok l →
      l = paths.filter (fun d => rs.all (fun r => pexists d r)) := by
  induction rs with
  | nil =>
    intro paths l h
    simp only [filter_requires, Except.ok.injEq] at h
    simp [← h]
  | cons r rs ih =>
    intro paths l h
    simp only [filter_requires] at h
    by_cases hre : (paths.filter (fun d => pexists d r)).isEmpty
    · rw [if_pos hre] at h; exact absurd h (by simp)
    · rw [if_neg hre] at h
      rw [ih _ l h, List.filter_filter]
      refine List.filter_congr ?_
      intro d _
      simp [List.all_cons, Bool.and_comm]

theorem filter_requires_ne_nil (pexists : String → String → Bool) (rs : List String) :
    ∀ paths l, paths ≠ [] → filter_requires pexists paths rs = Except.ok l → l ≠ [] := by
  induction rs with
  | nil =>
    intro paths l hp h
    simp only [filter_requires, Except.ok.injEq] at h
    rw [← h]; exact hp
  | cons r rs ih =>
    intro paths l _ h
    simp only [filter_requires] at h
    by_cases hre : (paths.filter (fun d => pexists d r)).isEmpty
    · rw [if_pos hre] at h; exact absurd h (by simp)
    · rw [if_neg hre] at h
      exact ih _ l (by simpa [List.isEmpty_iff] using hre) h

theorem filter_requires_error_mem (pexists : String → String → Bool) (rs : List String) :
    ∀ paths m, filter_requires pexists paths rs = Except.error m →
      ∃ r ∈ rs, m = "No valid package paths found for " ++ r := by
  induction rs with
  | nil => intro paths m h; exact absurd h (by simp [filter_requires])
  | cons r rs ih =>
    intro paths m h
    simp only [filter_requires] at h
    by_cases hre : (paths.filter (fun d => pexists d r)).isEmpty
    · rw [if_pos hre] at h
      refine ⟨r, by simp, ?_⟩
      cases h; rfl
    · rw [if_neg hre] at h
      obtain ⟨r2, hr2, hm⟩ := ih _ m h
      exact ⟨r2, by simp [hr2], hm⟩

theorem filter_requires_total_ok (pexists : String → String → Bool) (rs : List String) :
    ∀ paths, paths.filter (fun d => rs.all (fun r => pexists d r)) ≠ [] →
      filter_requires pexists paths rs =
        Except.ok (paths.filter (fun d => rs.all (fun r => pexists d r))) := by
  induction rs with
  | nil => intro paths _; simp [filter_requires]
  | cons r rs ih =>
    intro paths hne
    have hsplit : paths.filter (fun d => (r :: rs).all (fun r2 => pexists d r2)) =
        (paths.filter (fun d => pexists d r)).filter (fun d => rs.all (fun r2 => pexists d r2)) := by
      rw [List.filter_filter]
      refine List.filter_congr ?_
      intro d _
      simp [List.all_cons, Bool.and_comm]
    have hre : ¬ (paths.filter (fun d => pexists d r)).isEmpty := by
      rw [List.isEmpty_iff]
      intro hnil
      apply hne
      rw [hsplit, hnil, List.filter_nil]
    simp only [filter_requires, if_neg hre]
    rw [ih _ (by rw [← hsplit]; exact hne), hsplit]

/-- C4 (amended): resolution returns the first candidate root (environment
search roots, then the current directory) in which every required name
exists; and when some required name is satisfied by no candidate root,
resolution fails with an error naming one of the requirements — namely the
first one at which the surviving candidate set became empty, which need not
be the globally unsatisfiable one. -/
theorem get_external_package_path_resolution (pexists : String → String → Bool)
    (sysPath requires : List String) :
    (∀ root, get_external_package_path pexists sysPath requires = Except.ok root ↔
      (sysPath ++ ["."]).find? (fun d => requires.all (fun r => pexists d r)) = some root) ∧
    (∀ r ∈ requires, (∀ d ∈ sysPath ++ ["."], pexists d r = false) →
      ∃ r2 ∈ requires, get_external_package_path pexists sysPath requires =
        Except.error ("No valid package paths found for " ++ r2)) := by
  constructor
  · intro root
    constructor
    · intro h
      unfold get_external_package_path at h
      cases hfr : filter_requires pexists (sysPath ++ ["."]) requires with
      | error e =>
        rw [hfr] at h
        exact Except.noConfusion (show Except.error (α := String) e = Except.ok root from h)
      | ok l =>
        rw [hfr] at h
        have h2 : l.headD "" = root := by
          injection (show Except.ok (ε := String) (l.headD "") = Except.ok root from h)
        have hl := filter_requires_ok pexists requires _ l hfr
        have hne : l ≠ [] := filter_requires_ne_nil pexists requires _ l (by simp) hfr
        rw [← List.filter_head? _ _, ← hl]
        cases l with
        | nil => exact absurd rfl hne
        | cons a as =>
          rw [List.head?_cons]
          rw [List.headD_cons] at h2
          rw [h2]
    · intro h
      have hne : (sysPath ++ ["."]).filter
          (fun d => requires.all (fun r => pexists d r)) ≠ [] := by
        intro hnil
        rw [← List.filter_head? _ _, hnil] at h
        exact absurd h (by simp)
      unfold get_external_package_path
      rw [filter_requires_total_ok pexists requires _ hne]
      show Except.ok (((sysPath ++ ["."]).filter
        (fun d => requires.all (fun r => pexists d r))).headD "") = Except.ok root
      rw [← List.filter_head? _ _] at h
      cases hfl : (sysPath ++ ["."]).filter (fun d => requires.all (fun r => pexists d r)) with
      | nil => exact absurd hfl hne
      | cons a as =>
        rw [List.headD_cons]
        rw [hfl, List.head?_cons] at h
        injection h with h3
        rw [h3]
  · intro r hr hall
    have hnil : (sysPath ++ ["."]).filter
        (fun d => requires.all (fun r2 => pexists d r2)) = [] := by
      rw [List.filter_eq_nil_iff]
      intro d hd
      simp only [List.all_eq_true, not_forall]
      exact ⟨r, hr, by simp [hall d hd]⟩
    cases hfr : filter_requires pexists (sysPath ++ ["."]) requires with
    | ok l =>
      have hl := filter_requires_ok pexists requires _ l hfr
      have hne : l ≠ [] := filter_requires_ne_nil pexists requires _ l (by simp) hfr
      rw [hl, hnil] at hne
      exact absurd rfl hne
    | error m =>
      obtain ⟨r2, hr2, hm⟩ := filter_requires_error_mem pexists requires _ m hfr
      refine ⟨r2, hr2, ?_⟩
      unfold get_external_package_path
      rw [hfr, hm]
      rfl

/-- C4 counterexample: with roots `d1`, `d2` (then `.`), requirements
`[a, b, c]`, where `a` holds only in `d1`, `b` only in `d2`, and `c`
nowhere: the requirement `c` is satisfied by no candidate root, yet the
error produced names `b`, a requirement some candidate root does satisfy. -/
theorem get_external_package_path_counterexample :
    get_external_package_path pexistsC ["d1", "d2"] ["a", "b", "c"] =
      Except.error "No valid package paths found for b" ∧
    ["d1", "d2", "."].all (fun d => !pexistsC d "c") = true ∧
    get_external_package_path pexistsC ["d1", "d2"] ["a", "b", "c"] ≠
      Except.error "No valid package paths found for c" := by
  have hfirst : get_external_package_path pexistsC ["d1", "d2"] ["a", "b", "c"] =
      Except.error "No valid package paths found for b" := rfl
  refine ⟨hfirst, by decide, ?_⟩
  rw [hfirst]
  intro h
  injection h with h2
  exact absurd h2 (by decide)

theorem get_external_package_path_resolution_witness :
    get_external_package_path pexistsAB ["sroot"] ["A", "B"] = Except.ok "sroot" :=
  ((get_external_package_path_resolution pexistsAB ["sroot"] ["A", "B"]).1 "sroot").mpr
    (by decide)

/-! ## C2 and C6: the shape of `finalize_options` -/

theorem bool_true_of_not_false {b : Bool} (h : ¬ b = false) : b = true := by
  cases b
  · exact absurd rfl h
  · rfl

/-- Every outcome of `finalize_options` is either an assertion failure with
an empty effect trace, or it reaches the version-resolution stage with every
path assertion satisfied. -/
theorem finalize_options_cases (o : Options) (env : Env) :
    ((finalize_options o env).1 = [] ∧ ∃ msg, (finalize_options o env).2 = Except.error msg) ∨
    ((finalize_options o env).1 = finalize_version_effects o env ∧ PathsOk o env) := by
  unfold finalize_options
  by_cases h1 : truthy o.qmake_path = false
  · rw [if_pos h1]; exact Or.inl ⟨rfl, _, rfl⟩
  rw [if_neg h1]
  by_cases h2 : truthy o.vc_dir = false
  · rw [if_pos h2]; exact Or.inl ⟨rfl, _, rfl⟩
  rw [if_neg h2]
  by_cases h3 : truthy o.platform = false
  · rw [if_pos h3]; exact Or.inl ⟨rfl, _, rfl⟩
  rw [if_neg h3]
  by_cases h4 : truthy o.pyqt_dir = false
  · rw [if_pos h4]; exact Or.inl ⟨rfl, _, rfl⟩
  rw [if_neg h4]
  by_cases h5 : truthy o.sip_dir = false
  · rw [if_pos h5]; exact Or.inl ⟨rfl, _, rfl⟩
  rw [if_neg h5]
  by_cases h6 : truthy o.python_dir = false
  · rw [if_pos h6]; exact Or.inl ⟨rfl, _, rfl⟩
  rw [if_neg h6]
  by_cases h7 : env.isfile (o.qmake_path.getD "") = false
  · rw [if_pos h7]; exact Or.inl ⟨rfl, _, rfl⟩
  rw [if_neg h7]
  by_cases h8 : env.isdir (o.vc_dir.getD "") = false
  · rw [if_pos h8]; exact Or.inl ⟨rfl, _, rfl⟩
  rw [if_neg h8]
  by_cases h9 : ["amd64"].contains (o.platform.getD "") = false
  · rw [if_pos h9]; exact Or.inl ⟨rfl, _, rfl⟩
  rw [if_neg h9]
  by_cases h10 : env.isdir (o.pyqt_dir.getD "") = false
  · rw [if_pos h10]; exact Or.inl ⟨rfl, _, rfl⟩
  rw [if_neg h10]
  by_cases h11 : env.isdir (o.sip_dir.getD "") = false
  · rw [if_pos h11]; exact Or.inl ⟨rfl, _, rfl⟩
  rw [if_neg h11]
  by_cases h12 : env.isdir (o.python_dir.getD "") = false
  · rw [if_pos h12]; exact Or.inl ⟨rfl, _, rfl⟩
  rw [if_neg h12]
  by_cases h13 : truthy o.qt_modules = false
  · rw [if_pos h13]; exact Or.inl ⟨rfl, _, rfl⟩
  rw [if_neg h13]
  by_cases h14 : truthy o.package = false
  · rw [if_pos h14]; exact Or.inl ⟨rfl, _, rfl⟩
  rw [if_neg h14]
  by_cases h15 : truthy o.app_name = false
  · rw [if_pos h15]; exact Or.inl ⟨rfl, _, rfl⟩
  rw [if_neg h15]
  by_cases h16 : env.isdir (o.package.getD "") = false
  · rw [if_pos h16]; exact Or.inl ⟨rfl, _, rfl⟩
  rw [if_neg h16]
  by_cases h17 : truthy o.entrypoint = true ∧ env.isfile (o.entrypoint.getD "") = false
  · rw [if_pos h17]; exact Or.inl ⟨rfl, _, rfl⟩
  rw [if_neg h17]
  rcases hps : parse_source_files o.source_files with e | sf
  · exact Or.inl ⟨rfl, _, rfl⟩
  show ((finalize_tail o env sf).1 = [] ∧
      ∃ msg, (finalize_tail o env sf).2 = Except.error msg) ∨
    ((finalize_tail o env sf).1 = finalize_version_effects o env ∧ PathsOk o env)
  unfold finalize_tail
  by_cases h18 : to_bool o.skip_installer = false ∧ truthy o.inno_setup_path = false
  · rw [if_pos h18]; exact Or.inl ⟨rfl, _, rfl⟩
  rw [if_neg h18]
  by_cases h19 : to_bool o.skip_installer = false ∧ env.isfile (o.inno_setup_path.getD "") = false
  · rw [if_pos h19]; exact Or.inl ⟨rfl, _, rfl⟩
  rw [if_neg h19]
  have hpaths : PathsOk o env := by
    refine ⟨bool_true_of_not_false h7, bool_true_of_not_false h8,
      bool_true_of_not_false h10, bool_true_of_not_false h11,
      bool_true_of_not_false h12, bool_true_of_not_false h16, ?_, ?_⟩
    · intro he
      by_cases hf : env.isfile (o.entrypoint.getD "") = false
      · exact absurd ⟨he, hf⟩ h17
      · exact bool_true_of_not_false hf
    · intro hs
      by_cases hf : env.isfile (o.inno_setup_path.getD "") = false
      · exact absurd ⟨hs, hf⟩ h19
      · exact bool_true_of_not_false hf
  rcases hgv : get_version env.gitDescribe env.declaredVersion env.now (to_bool o.allow_untagged)
    with e2 | v
  · exact Or.inr ⟨rfl, hpaths⟩
  · exact Or.inr ⟨rfl, hpaths⟩

/-- C2: whenever some required path-valued option (qmake path, vc dir, pyqt
dir, sip dir, python dir, package dir, a provided entrypoint, or the
inno-setup path when the installer is not skipped) does not exist on disk,
`finalize_options` fails before any side effect: the whole pipeline performs
no effect at all — no file is created, no process is invoked, and in
particular the clean stage never removes a pre-existing build directory. -/
theorem finalize_bad_path_no_effects (o : Options) (env : Env) (h : BadPath o env) :
    pipeline_effects o env = [] ∧
    ∃ msg, (finalize_options o env).2 = Except.error msg := by
  rcases finalize_options_cases o env with ⟨htr, m, herr⟩ | ⟨_, hok⟩
  · refine ⟨?_, m, herr⟩
    unfold pipeline_effects
    rcases hfo : finalize_options o env with ⟨tr, r⟩
    rw [hfo] at htr herr
    cases r with
    | error e => exact htr
    | ok cfg => exact absurd herr (by simp)
  · exfalso
    obtain ⟨hq, hv, hp, hs, hpy, hpk, hep, hin⟩ := hok
    rcases h with hb | hb | hb | hb | hb | hb | ⟨hb1, hb2⟩ | ⟨hb1, hb2⟩
    · rw [hq] at hb; exact Bool.noConfusion hb
    · rw [hv] at hb; exact Bool.noConfusion hb
    · rw [hp] at hb; exact Bool.noConfusion hb
    · rw [hs] at hb; exact Bool.noConfusion hb
    · rw [hpy] at hb; exact Bool.noConfusion hb
    · rw [hpk] at hb; exact Bool.noConfusion hb
    · rw [hep hb1] at hb2; exact Bool.noConfusion hb2
    · rw [hin hb1] at hb2; exact Bool.noConfusion hb2

theorem finalize_bad_path_no_effects_witness :
    pipeline_effects optsFull envBase = [] ∧
    ∃ msg, (finalize_options optsFull envBase).2 = Except.error msg :=
  finalize_bad_path_no_effects optsFull envBase (Or.inl (by decide))

/-- C6 (amended): there is no tool-location cache.  Option initialization
assigns fixed defaults independent of any on-disk state, and
`finalize_options` performs no file read or write whatsoever — its only
external effect is the `git describe` invocation of version resolution. -/
theorem no_tool_cache (o : Options) (env env2 : Env) :
    (finalize_options o env).1.filter effectTouchesFile = [] ∧
    initial_options env = initial_options env2 := by
  refine ⟨?_, rfl⟩
  rcases finalize_options_cases o env with ⟨htr, _⟩ | ⟨htr, _⟩
  · rw [htr]; rfl
  · rw [htr]
    unfold finalize_version_effects
    by_cases hgd : pyStrip env.gitDescribe = ""
    · rw [if_pos hgd]; rfl
    · rw [if_neg hgd]; rfl

/-- C6 counterexample: a fully valid configuration validates successfully,
yet the only effect is the `git describe` call — no cache file is written —
and option initialization is identical whether every path exists or none
does, so no cache file is read either. -/
theorem no_tool_cache_counterexample :
    (finalize_options optsFull envAll).2.isOk = true ∧
    (finalize_options optsFull envAll).1 = [Effect.procCall ["git", "describe", "--tags"]] ∧
    initial_options envAll = initial_options envBase :=
  ⟨rfl, rfl, rfl⟩

/-! ## C5: pre-build hooks and output targets -/

theorem dictMerge_keys_sub (a b : List (String × String)) (k : String)
    (h : k ∈ a.map Prod.fst ∨ k ∈ b.map Prod.fst) :
    k ∈ (dictMerge a b).map Prod.fst := by
  unfold dictMerge
  rw [List.map_append]
  by_cases ha : k ∈ a.map Prod.fst
  · apply List.mem_append_left
    rw [List.map_map]
    have heq : (Prod.fst ∘ fun kv : String × String =>
        match b.find? (fun kv2 => kv2.1 == kv.1) with
        | some kv2 => (kv.1, kv2.2)
        | none => kv) = Prod.fst := by
      funext kv
      cases hf : b.find? (fun kv2 => kv2.1 == kv.1) <;> simp [hf]
    rw [heq]
    exact ha
  · rcases h with h | hb
    · exact absurd h ha
    · apply List.mem_append_right
      rw [List.mem_map] at hb ⊢
      obtain ⟨kv, hkv, hk⟩ := hb
      refine ⟨kv, ?_, hk⟩
      rw [List.mem_filter]
      refine ⟨hkv, ?_⟩
      simp only [Bool.not_eq_true', List.any_eq_false, beq_iff_eq]
      intro kv2 h2 hEq
      exact ha (List.mem_map.mpr ⟨kv2, h2, by rw [hEq, hk]⟩)

theorem mem_keys_foldl_dictMerge (hook : String → List (String × String)) :
    ∀ (steps : List String) (acc : List (String × String)) (k : String),
      (k ∈ acc.map Prod.fst ∨ ∃ step ∈ steps, k ∈ (hook step).map Prod.fst) →
      k ∈ (steps.foldl (fun m step => dictMerge m (hook step)) acc).map Prod.fst := by
  intro steps
  induction steps with
  | nil =>
    intro acc k h
    rcases h with h | ⟨st, hst, _⟩
    · simpa using h
    · exact absurd hst (by simp)
  | cons s ss ih =>
    intro acc k h
    rw [List.foldl_cons]
    apply ih
    rcases h with h | ⟨st, hst, hk⟩
    · exact Or.inl (dictMerge_keys_sub _ _ _ (Or.inl h))
    · rcases List.mem_cons.mp hst with rfl | hst2
      · exact Or.inl (dictMerge_keys_sub _ _ _ (Or.inr hk))
      · exact Or.inr ⟨st, hst2, hk⟩

/-- C5 (amended): pre-build hooks are executed but their return values are
discarded — the output-targets collection at the installer stage is
independent of the configured pre-build hooks; only post-build hooks' returned
mappings are merged into it (every key contributed by a post-build hook is
present among the output targets). -/
theorem pre_build_hooks_ignored (cfg : Config) (env : Env) (pre : List String) :
    run_output_dirs { cfg with pre_build := pre } env = run_output_dirs cfg env ∧
    (cfg.skip_post_build = false →
      ∀ step ∈ cfg.post_build, ∀ kv ∈ env.hookResult step,
        kv.1 ∈ (run_output_dirs cfg env).map Prod.fst) := by
  refine ⟨rfl, ?_⟩
  intro hskip step hstep kv hkv
  unfold run_output_dirs
  rw [hskip]
  simp only [Bool.false_eq_true, if_false]
  have hmem : kv.1 ∈ (cfg.post_build.foldl
      (fun m step => dictMerge m (env.hookResult step))
      ([] : List (String × String))).map Prod.fst := by
    apply mem_keys_foldl_dictMerge
    exact Or.inr ⟨step, hstep, List.mem_map.mpr ⟨kv, hkv, rfl⟩⟩
  cases hoe : cfg.post_build.foldl
      (fun m step => dictMerge m (env.hookResult step))
      ([] : List (String × String)) with
  | nil => rw [hoe] at hmem; simp at hmem
  | cons x xs =>
    rw [hoe] at hmem
    rw [if_neg (by simp)]
    exact hmem

/-- C5 counterexample: a pre-build hook that returns the mapping
`{'extra': 'out_extra'}` contributes nothing — at the installer stage the
output targets are only the default unnamed target, and `extra` is absent. -/
theorem pre_build_hook_target_counterexample :
    envPre.hookResult "hooks.py:prehook" = [("extra", "out_extra")] ∧
    cfgPre.pre_build = ["hooks.py:prehook"] ∧
    cfgPre.skip_post_build = false ∧ cfgPre.skip_installer = false ∧
    run_output_dirs cfgPre envPre = [("", "build/release")] ∧
    ¬ "extra" ∈ (run_output_dirs cfgPre envPre).map Prod.fst := by
  refine ⟨rfl, rfl, rfl, rfl, rfl, by decide⟩

theorem pre_build_hooks_ignored_witness :
    "extra" ∈ (run_output_dirs cfgPost envPost).map Prod.fst :=
  (pre_build_hooks_ignored cfgPost envPost []).2 rfl "hooks.py:posthook" (by decide)
    ("extra", "out_extra") (by decide)

/-! ## C7: the translation stages -/

/-- C7 (amended): with no configured translation languages, the extraction
tool (`pylupdate5`) is never invoked — `_generate_ts` contributes no
external call — but the translation compiler (`lrelease`) is still invoked
unconditionally by `_generate_qm` during every run. -/
theorem translation_stage (cfg : Config) (env : Env) (h : cfg.languages = []) :
    generate_ts_calls cfg = [] ∧
    generate_qm_calls cfg =
      [[pathJoin (qt_dir cfg) "lrelease", "-verbose", qmake_pro_file cfg]] ∧
    Effect.procCall [pathJoin (qt_dir cfg) "lrelease", "-verbose", qmake_pro_file cfg] ∈
      run_effects cfg env := by
  refine ⟨by simp [generate_ts_calls, h], rfl, ?_⟩
  unfold run_effects
  simp [generate_qm_calls, List.mem_append]

theorem translation_stage_witness :
    generate_ts_calls cfgBase = [] ∧
    generate_qm_calls cfgBase =
      [[pathJoin (qt_dir cfgBase) "lrelease", "-verbose", qmake_pro_file cfgBase]] ∧
    Effect.procCall [pathJoin (qt_dir cfgBase) "lrelease", "-verbose",
      qmake_pro_file cfgBase] ∈ run_effects cfgBase envBase :=
  translation_stage cfgBase envBase rfl

/-- C7 counterexample: a build with an empty languages list still invokes
`lrelease` (the translation compilation tool) during the run. -/
theorem translation_counterexample :
    cfgBase.languages = [] ∧
    Effect.procCall [pathJoin (qt_dir cfgBase) "lrelease", "-verbose",
      qmake_pro_file cfgBase] ∈ run_effects cfgBase envBase :=
  ⟨rfl, by unfold run_effects; simp [generate_qm_calls, List.mem_append]⟩

/-! ## C8: external-package copy idempotence -/

/-- C8 (amended): when both destination forms of a package already exist
under the output packages directory, the directory and module-file copies
are skipped silently (no effect, no error) — but a matching compiled
`.pyd` artifact is still copied unconditionally; and every emitted tree copy
excludes `__pycache__` and `*.pyc`. -/
theorem copy_package_existing_dest (env : Env) (cur pkg dest : String)
    (h1 : env.isdir (pathJoin dest pkg) = true)
    (h2 : env.isfile (pathJoin dest (pkg ++ ".py")) = true) :
    copy_package_ops env cur pkg dest =
      (if (env.glob (pathJoin cur (pkg ++ ".*.pyd"))).isEmpty then []
       else [Effect.copyFile ((env.glob (pathJoin cur (pkg ++ ".*.pyd"))).headD "")
         (pathJoin dest (pyBasename ((env.glob (pathJoin cur (pkg ++ ".*.pyd"))).headD "")))]) ∧
    (∀ (env2 : Env) (c p d src dst : String) (ig : List String),
      Effect.copyTree src dst ig ∈ copy_package_ops env2 c p d →
      ig = ["__pycache__", "*.pyc"]) := by
  constructor
  · unfold copy_package_ops
    rw [h1, h2]
    simp
  · intro env2 c p d src dst ig hmem
    unfold copy_package_ops at hmem
    split_ifs at hmem <;> simp_all

theorem copy_package_existing_dest_witness :
    copy_package_ops envCopyBoth "site" "foo" "out/packages" = [] := by
  rw [(copy_package_existing_dest envCopyBoth "site" "foo" "out/packages" rfl rfl).1]
  rfl

/-- C8 counterexample: package `foo` whose destination directory
`out/packages/foo` already exists is not a no-op — the module file
`site/foo.py` is still copied to `out/packages/foo.py`. -/
theorem copy_package_counterexample :
    envCopy.isdir (pathJoin "out/packages" "foo") = true ∧
    copy_package_ops envCopy "site" "foo" "out/packages" =
      [Effect.copyFile "site/foo.py" "out/packages/foo.py"] :=
  ⟨rfl, rfl⟩

/-! ## C10: the cached `_app_version` property -/

theorem app_version_accesses_from_cache (allow : Bool) (v : String) :
    ∀ envs : List Env, app_version_accesses envs allow (some v) =
      Except.ok (List.replicate envs.length v) := by
  intro envs
  induction envs with
  | nil => rfl
  | cons e es ih =>
    show (app_version_accesses es allow (some v)).map (fun vs => v :: vs) = _
    rw [ih]
    rfl

/-- C10: once the first `_app_version` access resolves the version, every
later access in the same run returns the identical cached string, even when
the ambient environment (in particular the wall-clock timestamp embedded by
the fallback path) has changed between accesses. -/
theorem app_version_cached_once (env1 : Env) (rest : List Env) (allow : Bool) (v : String)
    (h : get_version env1.gitDescribe env1.declaredVersion env1.now allow = Except.ok v) :
    app_version_accesses (env1 :: rest) allow none =
      Except.ok (List.replicate (rest.length + 1) v) := by
  have hstep : app_version_step none env1 allow = Except.ok (v, some v) := by
    unfold app_version_step
    rw [h]
    rfl
  show (match app_version_step none env1 allow with
      | Except.error e => Except.error e
      | Except.ok (v2, c) => (app_version_accesses rest allow c).map (fun vs => v2 :: vs))
    = Except.ok (List.replicate (rest.length + 1) v)
  rw [hstep]
  show (app_version_accesses rest allow (some v)).map (fun vs => v :: vs) = _
  rw [app_version_accesses_from_cache allow v rest]
  rfl

theorem app_version_cached_once_witness :
    app_version_accesses [envClock1, envClock2] false none =
      Except.ok ["1.2.0-20240101000000", "1.2.0-20240101000000"] :=
  app_version_cached_once envClock1 [envClock2] false "1.2.0-20240101000000" rfl

end Pyqtinstaller
